import Mathlib

/-!
Verification of the scene-stack game-engine core of the `pokemon` repository.

The development shallowly embeds the Rust sources:
  * `src/dict.rs`  — `DictValue` / `Dict`, the dynamic value model;
  * `src/stack.rs` — the generic LIFO `Stack`;
  * `src/game.rs`  — `Scene`, `Sprite`, `SpriteSheet`, `SceneFnOutcome` and the
    `Engine` (`run`, `handle_scene_fn_outcome`, `handle_props`, `Scene::render`).

Modelling conventions:
  * Rust function pointers (`fn(...) -> ...`) would make `Scene` a negatively
    recursive type (a scene stores callbacks that return outcomes that store
    scene constructors).  They are therefore defunctionalized: a callback is a
    `Nat` identifier, and an `Env` record supplies the semantic function table
    for each kind of callback, exactly mirroring each pointer's Rust signature
    (with `&mut` receivers turned into explicit state passing).
  * Machine integers are carried as `Nat`/`Int`; no claim computes with them.
    `f32`/`f64` payloads are carried as their raw bit patterns (a `Nat`);
    `Box<dyn IsDictValue>` trait objects are carried as opaque identifiers.
  * `HashMap<String, _>` is modelled as an association list with the usual
    `get` / `insert` (replacing) / `remove` semantics; key order is not
    significant in the source, and no claim depends on it.
  * The SDL canvas is modelled as the list of draw commands issued to it;
    the SDL context/window/video fields of `Engine` are external collaborators
    with no bearing on any claim and are omitted.
-/

/-- `DictValue` from `src/dict.rs`: a closed tagged union of dynamic values.
`Func`/`FuncMut` are function pointers and `Object` a boxed trait object in the
source; they are carried as opaque identifiers here (see module conventions). -/
inductive DictValue where
  | Null
  | String (s : String)
  | Char (c : Char)
  | U8 (n : Nat)
  | I8 (n : Int)
  | U16 (n : Nat)
  | I16 (n : Int)
  | U32 (n : Nat)
  | I32 (n : Int)
  | U64 (n : Nat)
  | I64 (n : Int)
  | U128 (n : Nat)
  | I128 (n : Int)
  | F32 (bits : Nat)
  | F64 (bits : Nat)
  | Array (xs : List DictValue)
  | Dict (d : List (String × DictValue))
  | Func (id : Nat)
  | FuncMut (id : Nat)
  | Object (id : Nat)

/-- `Dict` from `src/dict.rs`: `HashMap<String, DictValue>`, as an association
list. -/
abbrev Dict := List (String × DictValue)

/-- `HashMap::get` on a `Dict`. -/
def dictGet (d : Dict) (k : String) : Option DictValue :=
  match d with
  | [] => none
  | (k', v) :: rest => if k' = k then some v else dictGet rest k

/-- `HashMap::remove` on a `Dict` (the sketch calls it `props.delete`): drops
every binding of the key. -/
def dictDelete (d : Dict) (k : String) : Dict :=
  match d with
  | [] => []
  | (k', v) :: rest => if k' = k then dictDelete rest k else (k', v) :: dictDelete rest k

/-- `HashMap::insert` on a `Dict`: replaces any existing binding of the key. -/
def dictInsert (d : Dict) (k : String) (v : DictValue) : Dict :=
  dictDelete d k ++ [(k, v)]

/-- `Stack<T>` from `src/stack.rs`, backed by a `Vec<T>`.  The `Vec` pushes and
pops at its end; we keep the most recent element at the head of the list, so
the `Vec`'s last element is the list's head. -/
structure Stack (T : Type) where
  stack : List T

/-- `Stack::new`. -/
def Stack.new {T : Type} : Stack T := ⟨[]⟩

/-- `Stack::push`. -/
def Stack.push {T : Type} (s : Stack T) (new : T) : Stack T :=
  ⟨new :: s.stack⟩

/-- `Stack::pop`: returns the removed element (if any) and the updated stack
(the `&mut self` receiver made explicit). -/
def Stack.pop {T : Type} (s : Stack T) : Option T × Stack T :=
  match s.stack with
  | [] => (none, s)
  | x :: xs => (some x, ⟨xs⟩)

/-- `Stack::replace`: pops, then pushes, returning the evicted item if any. -/
def Stack.replace {T : Type} (s : Stack T) (new : T) : Option T × Stack T :=
  let out := s.pop
  (out.1, out.2.push new)

/-- `Stack::peek`. -/
def Stack.peek {T : Type} (s : Stack T) : Option T :=
  s.stack.head?

/-- `Stack::empty`. -/
def Stack.empty {T : Type} (s : Stack T) : Bool :=
  s.stack.length == 0

/-- `Stack::len`. -/
def Stack.len {T : Type} (s : Stack T) : Nat :=
  s.stack.length

/-- Writing a value through the reference obtained from `Stack::peek_mut`: the
top slot (if any) is overwritten in place. -/
def Stack.setTop {T : Type} (s : Stack T) (x : T) : Stack T :=
  match s.stack with
  | [] => s
  | _ :: xs => ⟨x :: xs⟩

/-- `sdl2::rect::Rect` (an `x`/`y` position with a width and height); only its
identity matters to the engine core. -/
structure Rect where
  x : Int
  y : Int
  w : Nat
  h : Nat
  deriving DecidableEq

/-- `sdl2::pixels::Color` (`r`/`g`/`b`/`a` bytes). -/
structure Color where
  r : Nat
  g : Nat
  b : Nat
  a : Nat
  deriving DecidableEq

/-- `Sprite` from `src/game.rs`: either a textured rect referencing a
spritesheet entry by name, or a flat-colored rect. -/
inductive Sprite where
  | Texture (rect : Rect) (sprite : String)
  | Rect (rect : Rect) (color : Color)
  deriving DecidableEq

/-- An SDL event type (`sdl2::event::EventType`), the key of a scene's event
callback table. -/
abbrev EventType := Nat

/-- An SDL event; `etype` is what `EventType::from(event.to_ll().unwrap().r#type)`
computes in the source's dispatch loop. -/
structure Event where
  etype : EventType
  deriving DecidableEq

/-- `Scene` from `src/game.rs`.  The callback fields (`event_callbacks` values,
`on_tick`, `on_child_quit`) are Rust function pointers, carried here as `Nat`
identifiers resolved by an `Env` (see module conventions). -/
structure Scene where
  background : String
  state : Dict
  sprites : List Sprite
  event_callbacks : List (EventType × Nat)
  on_tick : Nat
  on_child_quit : Nat

/-- `HashMap::get` on a scene's `event_callbacks` table. -/
def getCallback (callbacks : List (EventType × Nat)) (etype : EventType) : Option Nat :=
  match callbacks with
  | [] => none
  | (t, cb) :: rest => if t = etype then some cb else getCallback rest etype

/-- `SceneFnOutcome` from `src/game.rs`: the tagged result of a scene callback.
`create_scene` is a `fn(Dict) -> Scene` pointer, carried as an identifier. -/
inductive SceneFnOutcome where
  | Continue
  | CreateChild (create_scene : Nat) (props : Dict)
  | Replace (create_scene : Nat) (props : Dict)
  | Quit (props : Dict)

/-- `SpriteSheet` from `src/game.rs`: one texture (opaque handle) plus a
name-to-source-rectangle index. -/
structure SpriteSheet where
  texture : Nat
  index : List (String × Rect)

/-- `SpriteSheet::get`: retrieves the `src_rect` for a given sprite name. -/
def SpriteSheet.get (sheet : SpriteSheet) (key : String) : Option Rect :=
  match sheet.index.find? (fun p => p.1 = key) with
  | some p => some p.2
  | none => none

/-- `Engine` from `src/game.rs`, restricted to the fields the engine core
reads: `info.delay` (passed to `on_tick`), the `handle_quit` function pointer
(as an identifier), the process-wide `globals`, and the scene stack.  The SDL
context/window/canvas/texture fields are external collaborators and carry no
engine-core state. -/
structure Engine where
  delay : Nat
  handle_quit : Nat
  globals : Dict
  stack : Stack Scene

/-- The function-pointer tables (see module conventions).  Each field mirrors
one Rust pointer type, with `&mut` receivers made explicit:
`eventCallback` ↦ `EventCallbackFn = fn(&mut Scene, &Event) -> SceneFnOutcome`,
`tickCallback` ↦ `SceneOnTickFn = fn(&mut Scene, u32) -> SceneFnOutcome`,
`childQuitCallback` ↦ `SceneOnChildQuitFn = fn(&mut Scene, Dict) -> SceneFnOutcome`,
`createScene` ↦ `fn(Dict) -> Scene`,
`handleQuit` ↦ `HandleQuitFn = fn(&mut Engine, Dict) -> Dict`. -/
structure Env where
  eventCallback : Nat → Scene → Event → Scene × SceneFnOutcome
  tickCallback : Nat → Scene → Nat → Scene × SceneFnOutcome
  childQuitCallback : Nat → Scene → Dict → Scene × SceneFnOutcome
  createScene : Nat → Dict → Scene
  handleQuit : Nat → Engine → Dict → Engine × Dict

/-- The body of the `for raw_request in requests` loop of
`Engine::handle_props`: a `DictValue::String` request naming a key of the
engine's globals copies that global into the `globals` side mapping; any other
entry is skipped. -/
def requestStep (selfGlobals : Dict) (globals : Dict) (raw_request : DictValue) : Dict :=
  match raw_request with
  | DictValue.String request =>
      match dictGet selfGlobals request with
      | some object => dictInsert globals request object
      | none => globals
  | _ => globals

/-- `Engine::handle_props` from `src/game.rs` (`fn handle_props(&self, props:
&mut Dict)`, here `selfGlobals = self.globals` and the new `props` is
returned): a fresh `globals` mapping is filled by folding `requestStep` over
`props["_REQUESTS"]` when that key holds an array; if it did, `_REQUESTS` is
then removed; finally the mapping is inserted into `props` under the key
`"globals"`. -/
def handle_props (selfGlobals : Dict) (props : Dict) : Dict :=
  let globals : Dict :=
    match dictGet props "_REQUESTS" with
    | some (DictValue.Array requests) => requests.foldl (requestStep selfGlobals) []
    | _ => []
  let props :=
    match dictGet props "_REQUESTS" with
    | some (DictValue.Array _) => dictDelete props "_REQUESTS"
    | _ => props
  dictInsert props "globals" (DictValue.Dict globals)

/-- `Engine::handle_scene_fn_outcome` from `src/game.rs` (the `&mut self`
receiver made explicit; `none` = continue, `some props` = exit with props).
`CreateChild`/`Replace` process the props and push/replace the constructed
scene; `Quit` pops the top scene, processes the props, and either feeds them
to the new top's `on_child_quit` — recursively resolving that outcome — or,
with no scene left, to the engine's quit handler, exiting with its result. -/
def handle_scene_fn_outcome (env : Env) (e : Engine) (outcome : SceneFnOutcome) :
    Engine × Option Dict :=
  match outcome with
  | SceneFnOutcome.CreateChild create_scene props =>
      let props := handle_props e.globals props
      ({ e with stack := e.stack.push (env.createScene create_scene props) }, none)
  | SceneFnOutcome.Replace create_scene props =>
      let props := handle_props e.globals props
      ({ e with stack := (e.stack.replace (env.createScene create_scene props)).2 }, none)
  | SceneFnOutcome.Quit props =>
      let e1 : Engine := { e with stack := e.stack.pop.2 }
      let props := handle_props e1.globals props
      match _hp : e1.stack.peek with
      | some parent =>
          let res := env.childQuitCallback parent.on_child_quit parent props
          let e2 : Engine := { e1 with stack := e1.stack.setTop res.1 }
          handle_scene_fn_outcome env e2 res.2
      | none =>
          let res := env.handleQuit e1.handle_quit e1 props
          (res.1, some res.2)
  | SceneFnOutcome.Continue => (e, none)
termination_by e.stack.len
decreasing_by
  simp only [Stack.len, Stack.setTop, Stack.pop, Stack.peek]
  rcases e with ⟨d, hq, g, ⟨l⟩⟩
  cases l with
  | nil => simp [Stack.pop, Stack.peek] at _hp
  | cons x xs =>
      simp only [Stack.pop] at _hp ⊢
      cases xs with
      | nil => simp [Stack.peek] at _hp
      | cons y ys => simp [Stack.setTop, Stack.len, List.length]

/-- One iteration of the event loop inside `Engine::run`: look up the current
top scene (re-establishing the `peek_mut` borrow, which `handle_scene_fn_outcome`'s
`&mut self` receiver forces to be released between events), find the callback
registered for the event's type — if none is registered the event is dropped —
apply it (mutating the top scene in place), and resolve its outcome.  `some`
in the second component is the run loop's `break 'running` value. -/
def dispatch_event (env : Env) (e : Engine) (event : Event) : Engine × Option Dict :=
  match e.stack.peek with
  | none => (e, none)
  | some scene =>
      match getCallback scene.event_callbacks event.etype with
      | none => (e, none)
      | some callback =>
          let res := env.eventCallback callback scene event
          let e1 : Engine := { e with stack := e.stack.setTop res.1 }
          handle_scene_fn_outcome env e1 res.2

/-- The `for event in event_pump.poll_iter()` loop of `Engine::run` over one
frame's polled batch: events are dispatched in order, and a `some` outcome
(`break 'running exit_props`) aborts the batch. -/
def dispatch_events (env : Env) (e : Engine) (events : List Event) : Engine × Option Dict :=
  match events with
  | [] => (e, none)
  | event :: rest =>
      match dispatch_event env e event with
      | (e1, some exit_props) => (e1, some exit_props)
      | (e1, none) => dispatch_events env e1 rest

/-- The tick step of `Engine::run`: if a top scene exists, `(scene.on_tick)(scene,
self.info.delay);` is executed as a statement — the scene is mutated through the
`peek_mut` reference but the returned `SceneFnOutcome` is discarded, never passed
to `handle_scene_fn_outcome`; if the stack is empty the loop breaks with
`HashMap::new()` (the empty dictionary). -/
def tick_step (env : Env) (e : Engine) : Engine × Option Dict :=
  match e.stack.peek with
  | none => (e, some ([] : Dict))
  | some scene =>
      let res := env.tickCallback scene.on_tick scene e.delay
      ({ e with stack := e.stack.setTop res.1 }, none)

/-- One pass of `Engine::run`'s `'running` loop, given the frame's polled event
batch: render the top scene (the result is ignored by the source and the canvas
is not engine-core state), dispatch the batch if a top scene exists — breaking
with the empty dictionary if not — sleep (no observable effect), then tick. -/
def run_frame (env : Env) (e : Engine) (events : List Event) : Engine × Option Dict :=
  match e.stack.peek with
  | none => (e, some ([] : Dict))
  | some _ =>
      match dispatch_events env e events with
      | (e1, some exit_props) => (e1, some exit_props)
      | (e1, none) => tick_step env e1

/-- The result of running `Engine::run` against a finite schedule of event
batches: either the loop broke with a final dictionary, or the schedule was
exhausted with the engine still running. -/
inductive RunResult where
  | exited (result : Dict)
  | running (e : Engine)

/-- `Engine::run` from `src/game.rs`, driven by a finite schedule: `events[i]`
is the batch `event_pump.poll_iter()` yields in the i-th iteration of the
`'running` loop.  The source loops until a `break 'running`; the schedule
indexes the iterations we observe. -/
def run (env : Env) (e : Engine) (events : List (List Event)) : RunResult :=
  match events with
  | [] => RunResult.running e
  | batch :: rest =>
      match run_frame env e batch with
      | (_, some result) => RunResult.exited result
      | (e1, none) => run env e1 rest

/-- The draw calls `Scene::render` issues to the `WindowCanvas`; the canvas is
modelled as the list of commands issued to it. -/
inductive CanvasCmd where
  | copy (texture : Nat) (src_rect : Rect) (dst_rect : Rect)
  | set_draw_color (color : Color)
  | draw_rect (rect : Rect)
  | fill_rect (rect : Rect)
  deriving DecidableEq

/-- The sprite loop of `Scene::render`, over the remaining sprites: a
`Sprite::Texture` looks its name up in the spritesheet — failing with the
missing-sprite message if absent — and copies the texture; a `Sprite::Rect`
sets the draw color and draws/fills the rect. -/
def renderSprites (spritesheet : SpriteSheet) (canvas : List CanvasCmd) :
    List Sprite → Except String (List CanvasCmd)
  | [] => Except.ok canvas
  | Sprite.Texture dst_rect sprite_name :: rest =>
      match spritesheet.get sprite_name with
      | none => Except.error ("Sprite " ++ sprite_name ++ " doesn't exist on spritesheet")
      | some src_rect =>
          renderSprites spritesheet
            (canvas ++ [CanvasCmd.copy spritesheet.texture src_rect dst_rect]) rest
  | Sprite.Rect rect color :: rest =>
      renderSprites spritesheet
        (canvas ++ [CanvasCmd.set_draw_color color, CanvasCmd.draw_rect rect,
          CanvasCmd.fill_rect rect]) rest

/-- `Scene::render` from `src/game.rs` (`fn render(&self, canvas, spritesheet)`):
draws the scene's sprites in list order onto the canvas; `&self` receiver, so
the scene itself is never mutated. -/
def Scene.render (scene : Scene) (canvas : List CanvasCmd) (spritesheet : SpriteSheet) :
    Except String (List CanvasCmd) :=
  renderSprites spritesheet canvas scene.sprites

/-- A call to one of the three mutating `Stack` operations, for stating the
net-length invariant over operation sequences. -/
inductive StackOp (T : Type) where
  | push (x : T)
  | pop
  | replace (x : T)

/-- Applies a sequence of `Stack` operations, also counting the pushes, the
pops that removed an element (`pop` returned `some`), and the replaces that
were performed on an empty stack. -/
def runOpsCounted {T : Type} (s : Stack T) (ops : List (StackOp T)) :
    Stack T × Nat × Nat × Nat :=
  match ops with
  | [] => (s, 0, 0, 0)
  | StackOp.push x :: rest =>
      let r := runOpsCounted (s.push x) rest
      (r.1, r.2.1 + 1, r.2.2.1, r.2.2.2)
  | StackOp.pop :: rest =>
      let removed := if (s.pop).1.isSome then 1 else 0
      let r := runOpsCounted (s.pop).2 rest
      (r.1, r.2.1, r.2.2.1 + removed, r.2.2.2)
  | StackOp.replace x :: rest =>
      let onEmpty := if s.empty then 1 else 0
      let r := runOpsCounted (s.replace x).2 rest
      (r.1, r.2.1, r.2.2.1, r.2.2.2 + onEmpty)

/-- A scene with the given callback identifiers and no content; concrete
material for the executable scenarios. -/
def mkScene (callbacks : List (EventType × Nat)) (tick : Nat) (cq : Nat) : Scene :=
  { background := "", state := [], sprites := [], event_callbacks := callbacks,
    on_tick := tick, on_child_quit := cq }

/-- The scene constructor (`fn(Dict) -> Scene`) used by the concrete
scenarios: a callback-free scene whose private state is the received props. -/
def mkChildScene (props : Dict) : Scene :=
  { background := "child", state := props, sprites := [], event_callbacks := [],
    on_tick := 0, on_child_quit := 0 }

/-- Concrete function-pointer tables for the executable scenarios.
Event callback 1 quits with `{score: 10}`; event callbacks 2 and 3 request a
child creation resp. a replacement; tick callback 1 requests a child creation;
child-quit callback 1 immediately returns `Quit`, forwarding the props;
scene constructor 1 is `mkChildScene`; quit handler 1 returns its input props
verbatim, quit handler 2 does the same but also increments a `count` global
(so invocations can be counted). -/
def testEnv : Env where
  eventCallback := fun id scene _event =>
    if id = 1 then (scene, SceneFnOutcome.Quit [("score", DictValue.I32 10)])
    else if id = 2 then (scene, SceneFnOutcome.CreateChild 1 [])
    else if id = 3 then (scene, SceneFnOutcome.Replace 1 [])
    else (scene, SceneFnOutcome.Continue)
  tickCallback := fun id scene _interval =>
    if id = 1 then (scene, SceneFnOutcome.CreateChild 1 [])
    else (scene, SceneFnOutcome.Continue)
  childQuitCallback := fun id scene props =>
    if id = 1 then (scene, SceneFnOutcome.Quit props)
    else (scene, SceneFnOutcome.Continue)
  createScene := fun _id props => mkChildScene props
  handleQuit := fun id e props =>
    if id = 2 then
      let newCount : DictValue :=
        match dictGet e.globals "count" with
        | some (DictValue.I32 n) => DictValue.I32 (n + 1)
        | _ => DictValue.I32 1
      ({ e with globals := dictInsert e.globals "count" newCount }, props)
    else (e, props)

/-- The engine of the `{score: 10}` scenario: a single scene whose event
callback for event type 0 quits with `{score: 10}`; quit handler 1 returns the
props it receives verbatim. -/
def engineA : Engine :=
  { delay := 16, handle_quit := 1, globals := [], stack := ⟨[mkScene [(0, 1)] 0 1]⟩ }

/-- A depth-3 engine whose scenes all have the immediately-quitting child-quit
callback, with the invocation-counting quit handler 2. -/
def engineDepth3 : Engine :=
  { delay := 16, handle_quit := 2, globals := [],
    stack := ⟨[mkScene [(0, 1)] 0 1, mkScene [] 0 1, mkScene [] 0 1]⟩ }

/-- A single-scene engine whose scene's tick callback requests a child
creation. -/
def engineTick : Engine :=
  { delay := 16, handle_quit := 1, globals := [], stack := ⟨[mkScene [] 1 0]⟩ }

/-- A single-scene engine whose scene registers no event callbacks at all. -/
def engineNoCb : Engine :=
  { delay := 16, handle_quit := 1, globals := [], stack := ⟨[mkScene [] 0 0]⟩ }

/-- An engine whose scene stack is empty. -/
def engineEmpty : Engine :=
  { delay := 16, handle_quit := 1, globals := [], stack := ⟨[]⟩ }

/-- A single-scene engine whose scene requests a child creation on event type 0
and a replacement on event type 5. -/
def enginePush : Engine :=
  { delay := 16, handle_quit := 1, globals := [],
    stack := ⟨[mkScene [(0, 2), (5, 3)] 0 0]⟩ }

/-- The process globals `{a: 1, b: 2, c: 3}` of the global-request scenario. -/
def globalsABC : Dict :=
  [("a", DictValue.I32 1), ("b", DictValue.I32 2), ("c", DictValue.I32 3)]

/-- The props `{_REQUESTS: ["a", "b"]}` of the global-request scenario. -/
def propsRequests : Dict :=
  [("_REQUESTS", DictValue.Array [DictValue.String "a", DictValue.String "b"])]

/-- A one-sprite spritesheet indexing only the name `"hero"`. -/
def sheetHero : SpriteSheet :=
  { texture := 0, index := [("hero", ⟨0, 0, 16, 16⟩)] }

/-- A scene drawing one textured sprite present on `sheetHero`. -/
def sceneHero : Scene :=
  { background := "", state := [], sprites := [Sprite.Texture ⟨1, 2, 16, 16⟩ "hero"],
    event_callbacks := [], on_tick := 0, on_child_quit := 0 }

/-- A scene drawing one textured sprite absent from `sheetHero`. -/
def sceneGhost : Scene :=
  { background := "", state := [], sprites := [Sprite.Texture ⟨1, 2, 16, 16⟩ "ghost"],
    event_callbacks := [], on_tick := 0, on_child_quit := 0 }

theorem dictGet_dictDelete (d : Dict) (k k' : String) :
    dictGet (dictDelete d k) k' = if k = k' then none else dictGet d k' := by
  induction d with
  | nil => simp [dictDelete, dictGet]
  | cons p rest ih =>
      obtain ⟨a, b⟩ := p
      by_cases hak : a = k
      · subst hak
        by_cases h : a = k'
        · subst h
          simp [dictDelete, dictGet, ih]
        · simp [dictDelete, dictGet, h, ih]
      · by_cases h : a = k' <;> by_cases h2 : k = k' <;>
          simp_all [dictDelete, dictGet]

theorem dictGet_append (d1 d2 : Dict) (k : String) :
    dictGet (d1 ++ d2) k =
      match dictGet d1 k with
      | some v => some v
      | none => dictGet d2 k := by
  induction d1 with
  | nil => simp [dictGet]
  | cons p rest ih =>
      obtain ⟨a, b⟩ := p
      by_cases h : a = k <;> simp [dictGet, h, ih]

theorem dictGet_dictInsert (d : Dict) (k k' : String) (v : DictValue) :
    dictGet (dictInsert d k v) k' = if k = k' then some v else dictGet d k' := by
  unfold dictInsert
  rw [dictGet_append, dictGet_dictDelete]
  by_cases h : k = k'
  · simp [dictGet, h]
  · simp only [if_neg h]
    cases dictGet d k' <;> simp [dictGet, h]

/-- C5: `Stack::replace` on a non-empty stack leaves `len()` unchanged and
returns `Some` of the previous top element; on an empty stack it behaves
exactly as `push` (the length becomes 1 and the new element is the top) and
returns `None`. -/
theorem stack_replace_spec {T : Type} (s : Stack T) (x : T) :
    (s.len ≠ 0 →
      (s.replace x).2.len = s.len ∧ (s.replace x).1 = s.peek ∧ s.peek.isSome)
    ∧ (s.len = 0 →
      (s.replace x).2 = s.push x ∧ (s.replace x).2.len = 1 ∧
      (s.replace x).2.peek = some x ∧ (s.replace x).1 = none) := by
  obtain ⟨l⟩ := s
  cases l <;>
    simp [Stack.replace, Stack.pop, Stack.push, Stack.len, Stack.peek]

/-- Witness for C5 at the concrete stacks `[5, 6]` (top `5`) and `[]`. -/
theorem stack_replace_spec_witness :
    (Stack.replace (⟨[5, 6]⟩ : Stack Nat) 7).2.len = 2 ∧
    (Stack.replace (⟨[5, 6]⟩ : Stack Nat) 7).1 = some 5 ∧
    (Stack.replace (⟨[]⟩ : Stack Nat) 7).2 = Stack.push ⟨[]⟩ 7 ∧
    (Stack.replace (⟨[]⟩ : Stack Nat) 7).1 = none := by
  have h1 := (stack_replace_spec (⟨[5, 6]⟩ : Stack Nat) 7).1 (by decide)
  have h2 := (stack_replace_spec (⟨[]⟩ : Stack Nat) 7).2 (by decide)
  refine ⟨h1.1, ?_, h2.1, h2.2.2.2⟩
  rw [h1.2.1]
  rfl

theorem runOpsCounted_len {T : Type} (ops : List (StackOp T)) (s : Stack T) :
    ((runOpsCounted s ops).1.len : Int) =
      (s.len : Int) + (runOpsCounted s ops).2.1
        - (runOpsCounted s ops).2.2.1 + (runOpsCounted s ops).2.2.2 := by
  induction ops generalizing s with
  | nil => simp [runOpsCounted]
  | cons op rest ih =>
      cases op with
      | push x =>
          have h := ih (s.push x)
          simp only [runOpsCounted] at h ⊢
          simp [Stack.push, Stack.len] at h ⊢
          omega
      | pop =>
          have h := ih (s.pop).2
          obtain ⟨l⟩ := s
          cases l with
          | nil =>
              simp only [runOpsCounted] at h ⊢
              simp [Stack.pop, Stack.len] at h ⊢
              omega
          | cons a as =>
              simp only [runOpsCounted] at h ⊢
              simp [Stack.pop, Stack.len] at h ⊢
              omega
      | replace x =>
          have h := ih (s.replace x).2
          obtain ⟨l⟩ := s
          cases l with
          | nil =>
              simp only [runOpsCounted] at h ⊢
              simp [Stack.replace, Stack.pop, Stack.push, Stack.empty, Stack.len] at h ⊢
              omega
          | cons a as =>
              simp only [runOpsCounted] at h ⊢
              simp [Stack.replace, Stack.pop, Stack.push, Stack.empty, Stack.len] at h ⊢
              omega

/-- C6: over any finite sequence of `push`/`pop`/`replace` operations applied
to a new `Stack`, the final `len()` equals the number of pushes, minus the
number of pops that removed an element, plus the number of replaces performed
on an empty stack. -/
theorem stack_len_net_of_ops {T : Type} (ops : List (StackOp T)) :
    ((runOpsCounted (Stack.new : Stack T) ops).1.len : Int) =
      (runOpsCounted (Stack.new : Stack T) ops).2.1
        - (runOpsCounted (Stack.new : Stack T) ops).2.2.1
        + (runOpsCounted (Stack.new : Stack T) ops).2.2.2 := by
  have h := runOpsCounted_len ops (Stack.new : Stack T)
  simpa [Stack.new, Stack.len] using h

/-- C7: dispatching an event whose type has no registered callback on the
current top scene is a no-op — not an error, and the whole engine (scene
stack, top scene's state, globals) is returned unchanged. -/
theorem dispatch_event_no_callback (env : Env) (e : Engine) (event : Event) (scene : Scene)
    (hpeek : e.stack.peek = some scene)
    (hcb : getCallback scene.event_callbacks event.etype = none) :
    dispatch_event env e event = (e, none) := by
  unfold dispatch_event
  rw [hpeek]
  simp [hcb]

/-- Witness for C7: a scene registering no callbacks drops event type 3. -/
theorem dispatch_event_no_callback_witness :
    dispatch_event testEnv engineNoCb ⟨3⟩ = (engineNoCb, none) :=
  dispatch_event_no_callback testEnv engineNoCb ⟨3⟩ (mkScene [] 0 0) rfl rfl

/-- C8: if the scene stack is found empty at the top of a dispatch pass, the
run loop terminates with the empty dictionary (for any environment, so no quit
handler contributes to the result); the tick step likewise breaks with the
empty dictionary on an empty stack. -/
theorem run_empty_stack (env : Env) (e : Engine) (batch : List Event)
    (rest : List (List Event)) (h : e.stack.empty = true) :
    run env e (batch :: rest) = RunResult.exited [] ∧
    tick_step env e = (e, some []) := by
  have hnil : e.stack.stack = [] := by
    simp [Stack.empty] at h
    exact h
  constructor
  · simp [run, run_frame, Stack.peek, hnil]
  · simp [tick_step, Stack.peek, hnil]

/-- Witness for C8 at a concrete empty-stack engine. -/
theorem run_empty_stack_witness :
    run testEnv engineEmpty [[⟨0⟩]] = RunResult.exited [] ∧
    tick_step testEnv engineEmpty = (engineEmpty, some []) :=
  run_empty_stack testEnv engineEmpty [⟨0⟩] [] (by decide)

theorem requestStep_get_ne (g acc : Dict) (r : DictValue) (k : String)
    (h : r ≠ DictValue.String k) :
    dictGet (requestStep g acc r) k = dictGet acc k := by
  cases r
  case String s =>
      have hs : s ≠ k := by
        intro he
        exact h (by rw [he])
      cases hg : dictGet g s with
      | none => simp [requestStep, hg]
      | some o => simp [requestStep, hg, dictGet_dictInsert, hs]
  all_goals rfl

theorem requestStep_get_self (g acc : Dict) (k : String) (v : DictValue)
    (hg : dictGet g k = some v) :
    dictGet (requestStep g acc (DictValue.String k)) k = some v := by
  simp [requestStep, hg, dictGet_dictInsert]

theorem requestStep_get_absent (g acc : Dict) (r : DictValue) (k : String)
    (hg : dictGet g k = none) :
    dictGet (requestStep g acc r) k = dictGet acc k := by
  by_cases h : r = DictValue.String k
  · subst h
    simp [requestStep, hg]
  · exact requestStep_get_ne g acc r k h

theorem requestFold_not_mem (g : Dict) (reqs : List DictValue) :
    ∀ (acc : Dict) (k : String), DictValue.String k ∉ reqs →
      dictGet (reqs.foldl (requestStep g) acc) k = dictGet acc k := by
  induction reqs with
  | nil => intro acc _ _; rfl
  | cons r rest ih =>
      intro acc k h
      simp only [List.foldl_cons]
      rw [ih _ k (fun hm => h (List.mem_cons_of_mem _ hm))]
      exact requestStep_get_ne g acc r k
        (fun he => h (he ▸ List.mem_cons_self _ _))

theorem requestFold_absent (g : Dict) (reqs : List DictValue) :
    ∀ (acc : Dict) (k : String), dictGet g k = none →
      dictGet (reqs.foldl (requestStep g) acc) k = dictGet acc k := by
  induction reqs with
  | nil => intro acc _ _; rfl
  | cons r rest ih =>
      intro acc k hg
      simp only [List.foldl_cons]
      rw [ih _ k hg]
      exact requestStep_get_absent g acc r k hg

theorem requestFold_mem (g : Dict) (reqs : List DictValue) :
    ∀ (acc : Dict) (k : String) (v : DictValue),
      DictValue.String k ∈ reqs → dictGet g k = some v →
      dictGet (reqs.foldl (requestStep g) acc) k = some v := by
  induction reqs with
  | nil =>
      intro acc k v h _
      cases h
  | cons r rest ih =>
      intro acc k v hmem hg
      simp only [List.foldl_cons]
      by_cases hr : DictValue.String k ∈ rest
      · exact ih _ k v hr hg
      · have hrk : r = DictValue.String k := by
          rcases List.mem_cons.mp hmem with h | h
          · exact h.symm
          · exact absurd h hr
        subst hrk
        rw [requestFold_not_mem g rest _ k hr]
        exact requestStep_get_self g acc k v hg

theorem handle_props_globals_get (g p : Dict) :
    dictGet (handle_props g p) "globals" = some (DictValue.Dict
      (match dictGet p "_REQUESTS" with
       | some (DictValue.Array reqs) => reqs.foldl (requestStep g) []
       | _ => ([] : Dict))) := by
  unfold handle_props
  rcases hr : dictGet p "_REQUESTS" with _ | v
  · simp [dictGet_dictInsert]
  · cases v <;> simp [hr, dictGet_dictInsert]

/-- C2: when `props["_REQUESTS"]` holds an array of strings, `handle_props`
stores under `"globals"` a mapping holding exactly the requested keys present
in the engine's globals (each with its global value), removes `_REQUESTS`,
and concretely maps `_REQUESTS = ["a","b"]` with globals `{a:1, b:2, c:3}` to
`globals = {a:1, b:2}` with no `_REQUESTS` key. -/
theorem handle_props_requests (g p : Dict) (reqs : List DictValue)
    (hreq : dictGet p "_REQUESTS" = some (DictValue.Array reqs))
    (_hstr : ∀ v ∈ reqs, ∃ s, v = DictValue.String s) :
    (∃ m, dictGet (handle_props g p) "globals" = some (DictValue.Dict m)
      ∧ (∀ k, DictValue.String k ∈ reqs → dictGet m k = dictGet g k)
      ∧ (∀ k, DictValue.String k ∉ reqs → dictGet m k = none))
    ∧ dictGet (handle_props g p) "_REQUESTS" = none
    ∧ dictGet (handle_props globalsABC propsRequests) "globals"
        = some (DictValue.Dict [("a", DictValue.I32 1), ("b", DictValue.I32 2)])
    ∧ dictGet (handle_props globalsABC propsRequests) "_REQUESTS" = none := by
  refine ⟨⟨reqs.foldl (requestStep g) [], ?_, ?_, ?_⟩, ?_, by rfl, by rfl⟩
  · rw [handle_props_globals_get g p, hreq]
  · intro k hk
    cases hg : dictGet g k with
    | none => rw [requestFold_absent g reqs [] k hg]; rfl
    | some v => rw [requestFold_mem g reqs [] k v hk hg]
  · intro k hk
    rw [requestFold_not_mem g reqs [] k hk]
    rfl
  · unfold handle_props
    rw [hreq]
    rw [dictGet_dictInsert]
    rw [if_neg (by decide), dictGet_dictDelete, if_pos rfl]

/-- Witness for C2 at `_REQUESTS = ["a","b"]`, globals `{a:1, b:2, c:3}`. -/
theorem handle_props_requests_witness :
    (∃ m, dictGet (handle_props globalsABC propsRequests) "globals"
        = some (DictValue.Dict m)
      ∧ (∀ k, DictValue.String k ∈ [DictValue.String "a", DictValue.String "b"] →
          dictGet m k = dictGet globalsABC k)
      ∧ (∀ k, DictValue.String k ∉ [DictValue.String "a", DictValue.String "b"] →
          dictGet m k = none))
    ∧ dictGet (handle_props globalsABC propsRequests) "_REQUESTS" = none := by
  have h := handle_props_requests globalsABC propsRequests
    [DictValue.String "a", DictValue.String "b"] rfl ?hstr
  · exact ⟨h.1, h.2.1⟩
  case hstr =>
    intro v hv
    rcases List.mem_cons.mp hv with h1 | h1
    · exact ⟨"a", h1⟩
    · rcases List.mem_cons.mp h1 with h2 | h2
      · exact ⟨"b", h2⟩
      · cases h2

/-- C10: `handle_props` unconditionally inserts a mapping under `"globals"` —
also when `_REQUESTS` is missing or holds a non-array value (then the mapping
is empty); every entry of the inserted mapping comes from a string entry of
the `_REQUESTS` array naming a key of the engine's globals (non-string entries
and absent requests are skipped); and resolving a `CreateChild`/`Replace`
outcome (the engine's calls into `handle_props`) never modifies the engine's
own globals. -/
theorem handle_props_unconditional (g p : Dict) :
    (∃ m, dictGet (handle_props g p) "globals" = some (DictValue.Dict m)
      ∧ (∀ k v, dictGet m k = some v →
          ∃ reqs, dictGet p "_REQUESTS" = some (DictValue.Array reqs)
            ∧ DictValue.String k ∈ reqs ∧ dictGet g k = some v))
    ∧ ((∀ reqs, dictGet p "_REQUESTS" ≠ some (DictValue.Array reqs)) →
        dictGet (handle_props g p) "globals" = some (DictValue.Dict []))
    ∧ (∀ env e cs props,
        (handle_scene_fn_outcome env e (SceneFnOutcome.CreateChild cs props)).1.globals
          = e.globals
        ∧ (handle_scene_fn_outcome env e (SceneFnOutcome.Replace cs props)).1.globals
          = e.globals) := by
  refine ⟨?_, ?_, ?_⟩
  · rcases hr : dictGet p "_REQUESTS" with _ | v
    case none =>
        refine ⟨[], ?_, ?_⟩
        · rw [handle_props_globals_get g p, hr]
        · intro k v h
          cases h
    case some =>
        cases v
        case Array reqs =>
            refine ⟨reqs.foldl (requestStep g) [], ?_, ?_⟩
            · rw [handle_props_globals_get g p, hr]
            · intro k v h
              by_cases hk : DictValue.String k ∈ reqs
              · cases hg : dictGet g k with
                | none =>
                    rw [requestFold_absent g reqs [] k hg] at h
                    cases h
                | some w =>
                    refine ⟨reqs, rfl, hk, ?_⟩
                    rw [requestFold_mem g reqs [] k w hk hg] at h
                    exact h
              · rw [requestFold_not_mem g reqs [] k hk] at h
                cases h
        all_goals
          refine ⟨[], ?_, ?_⟩
          · rw [handle_props_globals_get g p, hr]
          · intro k v h
            cases h
  · intro hno
    rcases hr : dictGet p "_REQUESTS" with _ | v
    case none => rw [handle_props_globals_get g p, hr]
    case some =>
        cases v
        case Array reqs => exact absurd hr (hno reqs)
        all_goals rw [handle_props_globals_get g p, hr]
  · intro env e cs props
    constructor
    · simp [handle_scene_fn_outcome]
    · simp [handle_scene_fn_outcome]

/-- Witness for C10: props `{x: Null}` with no `_REQUESTS` key get the empty
`globals` mapping inserted, and a concrete `CreateChild` resolution leaves the
engine's globals untouched. -/
theorem handle_props_unconditional_witness :
    (∃ m, dictGet (handle_props globalsABC [("x", DictValue.Null)]) "globals"
        = some (DictValue.Dict m)
      ∧ (∀ k v, dictGet m k = some v →
          ∃ reqs, dictGet [("x", DictValue.Null)] "_REQUESTS"
              = some (DictValue.Array reqs)
            ∧ DictValue.String k ∈ reqs ∧ dictGet globalsABC k = some v))
    ∧ dictGet (handle_props globalsABC [("x", DictValue.Null)]) "globals"
        = some (DictValue.Dict [])
    ∧ (handle_scene_fn_outcome testEnv engineA (SceneFnOutcome.CreateChild 1 [])).1.globals
        = engineA.globals := by
  have h := handle_props_unconditional globalsABC [("x", DictValue.Null)]
  refine ⟨h.1, h.2.1 ?_, (h.2.2 testEnv engineA 1 []).1⟩
  intro reqs hr
  exact Option.noConfusion hr

theorem renderSprites_error_iff (sheet : SpriteSheet) (sprites : List Sprite) :
    ∀ (canvas : List CanvasCmd),
      (∃ msg, renderSprites sheet canvas sprites = Except.error msg) ↔
        ∃ r n, Sprite.Texture r n ∈ sprites ∧ sheet.get n = none := by
  induction sprites with
  | nil =>
      intro canvas
      constructor
      · rintro ⟨msg, h⟩
        simp [renderSprites] at h
      · rintro ⟨r, n, hmem, _⟩
        cases hmem
  | cons sp rest ih =>
      intro canvas
      cases sp with
      | Texture rect name =>
          cases hg : sheet.get name with
          | none =>
              constructor
              · intro _
                exact ⟨rect, name, List.mem_cons_self _ _, hg⟩
              · intro _
                refine ⟨"Sprite " ++ name ++ " doesn't exist on spritesheet", ?_⟩
                simp [renderSprites, hg]
          | some src =>
              simp only [renderSprites, hg]
              rw [ih _]
              constructor
              · rintro ⟨r, n, hm, hn⟩
                exact ⟨r, n, List.mem_cons_of_mem _ hm, hn⟩
              · rintro ⟨r, n, hm, hn⟩
                rcases List.mem_cons.mp hm with h | h
                · injection h with h1 h2
                  subst h2
                  rw [hg] at hn
                  cases hn
                · exact ⟨r, n, h, hn⟩
      | Rect rect color =>
          simp only [renderSprites]
          rw [ih _]
          constructor
          · rintro ⟨r, n, hm, hn⟩
            exact ⟨r, n, List.mem_cons_of_mem _ hm, hn⟩
          · rintro ⟨r, n, hm, hn⟩
            rcases List.mem_cons.mp hm with h | h
            · cases h
            · exact ⟨r, n, h, hn⟩

theorem renderSprites_error_msg (sheet : SpriteSheet) (sprites : List Sprite) :
    ∀ (canvas : List CanvasCmd) (msg : String),
      renderSprites sheet canvas sprites = Except.error msg →
      ∃ n, sheet.get n = none ∧ (∃ r, Sprite.Texture r n ∈ sprites) ∧
        msg = "Sprite " ++ n ++ " doesn't exist on spritesheet" := by
  induction sprites with
  | nil =>
      intro canvas msg h
      simp [renderSprites] at h
  | cons sp rest ih =>
      intro canvas msg h
      cases sp with
      | Texture rect name =>
          cases hg : sheet.get name with
          | none =>
              simp only [renderSprites, hg] at h
              injection h with h1
              exact ⟨name, hg, ⟨rect, List.mem_cons_self _ _⟩, h1.symm⟩
          | some src =>
              simp only [renderSprites, hg] at h
              obtain ⟨n, hn, ⟨r, hm⟩, hmsg⟩ := ih _ msg h
              exact ⟨n, hn, ⟨r, List.mem_cons_of_mem _ hm⟩, hmsg⟩
      | Rect rect color =>
          simp only [renderSprites] at h
          obtain ⟨n, hn, ⟨r, hm⟩, hmsg⟩ := ih _ msg h
          exact ⟨n, hn, ⟨r, List.mem_cons_of_mem _ hm⟩, hmsg⟩

/-- C9: `Scene::render` (whose `&self` receiver precludes any scene-state
mutation) fails if and only if some textured sprite of the scene, processed
in list order, names a sprite absent from the spritesheet index
(`SpriteSheet::get` returning `None`); any error it returns is the
missing-sprite message for such an absent name; and when every textured
sprite's name is present it returns `Ok`. -/
theorem scene_render_spec (scene : Scene) (canvas : List CanvasCmd) (sheet : SpriteSheet) :
    ((∃ msg, Scene.render scene canvas sheet = Except.error msg) ↔
      ∃ r n, Sprite.Texture r n ∈ scene.sprites ∧ sheet.get n = none)
    ∧ (∀ msg, Scene.render scene canvas sheet = Except.error msg →
        ∃ n, sheet.get n = none ∧ (∃ r, Sprite.Texture r n ∈ scene.sprites) ∧
          msg = "Sprite " ++ n ++ " doesn't exist on spritesheet")
    ∧ ((∀ r n, Sprite.Texture r n ∈ scene.sprites → (sheet.get n).isSome) →
        ∃ c, Scene.render scene canvas sheet = Except.ok c) := by
  refine ⟨renderSprites_error_iff sheet scene.sprites canvas,
    fun msg h => renderSprites_error_msg sheet scene.sprites canvas msg h, ?_⟩
  intro hall
  cases hres : Scene.render scene canvas sheet with
  | error msg =>
      obtain ⟨r, n, hm, hn⟩ :=
        (renderSprites_error_iff sheet scene.sprites canvas).mp ⟨msg, hres⟩
      have := hall r n hm
      rw [hn] at this
      cases this
  | ok c => exact ⟨c, rfl⟩

/-- Witness for C9: the scene referencing `"hero"` renders `Ok` against
`sheetHero`; the scene referencing `"ghost"` fails. -/
theorem scene_render_spec_witness :
    (∃ c, Scene.render sceneHero [] sheetHero = Except.ok c)
    ∧ (∃ msg, Scene.render sceneGhost [] sheetHero = Except.error msg) := by
  constructor
  · refine (scene_render_spec sceneHero [] sheetHero).2.2 ?_
    intro r n hm
    simp [sceneHero] at hm
    rw [hm.2]
    rfl
  · refine (scene_render_spec sceneGhost [] sheetHero).1.mpr ?_
    refine ⟨⟨1, 2, 16, 16⟩, "ghost", ?_, rfl⟩
    simp [sceneGhost]

/-- C3 (failing input): a single scene whose tick callback requests a child
creation.  After the frame, the stack still has depth 1 with no exit: `run`
executes `(scene.on_tick)(scene, self.info.delay);` as a statement and
discards the returned `SceneFnOutcome`, never passing it to
`handle_scene_fn_outcome` — although the callback did return
`CreateChild` (third conjunct) and resolving that outcome, as the
`SceneFnOutcome` doc comment in `src/game.rs` says tick outcomes do, would
give depth 2 (fourth conjunct). -/
theorem tick_outcome_discarded :
    (run_frame testEnv engineTick []).2 = none
    ∧ (run_frame testEnv engineTick []).1.stack.len = 1
    ∧ (testEnv.tickCallback 1 (mkScene [] 1 0) engineTick.delay).2
        = SceneFnOutcome.CreateChild 1 []
    ∧ (handle_scene_fn_outcome testEnv engineTick
        (SceneFnOutcome.CreateChild 1 [])).1.stack.len = 2 := by
  refine ⟨rfl, rfl, rfl, ?_⟩
  simp [handle_scene_fn_outcome, handle_props, dictGet, dictInsert, dictDelete,
    engineTick, Stack.push, Stack.len, testEnv, mkChildScene]

theorem quit_unwind_aux (env : Env) :
    ∀ (l : List Scene) (e : Engine) (p0 : Dict),
      e.stack.stack = l → l ≠ [] →
      (∀ s ∈ l, ∀ p, ∃ q,
        env.childQuitCallback s.on_child_quit s p = (s, SceneFnOutcome.Quit q)) →
      ∃ q, handle_scene_fn_outcome env e (SceneFnOutcome.Quit p0) =
        ((env.handleQuit e.handle_quit { e with stack := ⟨[]⟩ } q).1,
         some (env.handleQuit e.handle_quit { e with stack := ⟨[]⟩ } q).2) := by
  intro l
  induction l with
  | nil =>
      intro e p0 _ hne _
      exact absurd rfl hne
  | cons top rest ih =>
      intro e p0 he _ H
      obtain ⟨delay, hq, g, st⟩ := e
      obtain ⟨l0⟩ := st
      simp only at he
      subst he
      cases rest with
      | nil =>
          refine ⟨handle_props g p0, ?_⟩
          simp [handle_scene_fn_outcome, Stack.pop, Stack.peek]
      | cons parent rest2 =>
          obtain ⟨q1, hcq⟩ := H parent (by simp) (handle_props g p0)
          have step : handle_scene_fn_outcome env ⟨delay, hq, g, ⟨top :: parent :: rest2⟩⟩
              (SceneFnOutcome.Quit p0) =
              handle_scene_fn_outcome env ⟨delay, hq, g, ⟨parent :: rest2⟩⟩
                (SceneFnOutcome.Quit q1) := by
            simp [handle_scene_fn_outcome, Stack.pop, Stack.peek, Stack.setTop, hcq]
          rw [step]
          have hmem : ∀ s ∈ parent :: rest2, ∀ p, ∃ q,
              env.childQuitCallback s.on_child_quit s p = (s, SceneFnOutcome.Quit q) :=
            fun s hs => H s (List.mem_cons_of_mem _ hs)
          exact ih ⟨delay, hq, g, ⟨parent :: rest2⟩⟩ q1 rfl (by simp) hmem

theorem run_engineA_eq :
    run testEnv engineA [[⟨0⟩]] = RunResult.exited
      [("score", DictValue.I32 10), ("globals", DictValue.Dict [])] := by
  simp [run, run_frame, dispatch_events, dispatch_event, tick_step, engineA, mkScene,
    Stack.peek, Stack.setTop, getCallback, testEnv, handle_scene_fn_outcome, Stack.pop,
    handle_props, dictGet, dictInsert, dictDelete]

/-- C1 (amended): resolving one `Quit` outcome at the top of a depth-N stack
(N ≥ 1) whose scenes' `on_child_quit` callbacks all immediately return `Quit`
unwinds the whole stack — the quit handler is invoked once, on the engine with
the emptied stack, and the run loop exits with its result.  Concretely, the
one-scene `{score: 10}` scenario with a verbatim quit handler makes `run`
return `{score: 10, globals: {}}` — the props with the empty requested-globals
mapping that `handle_props` inserts before they reach the handler — and in the
depth-3 scenario the counting quit handler records exactly one invocation with
the stack fully emptied. -/
theorem quit_unwinds_stack :
    (∀ (env : Env) (e : Engine) (p0 : Dict),
      1 ≤ e.stack.len →
      (∀ s ∈ e.stack.stack, ∀ p, ∃ q,
        env.childQuitCallback s.on_child_quit s p = (s, SceneFnOutcome.Quit q)) →
      ∃ q, handle_scene_fn_outcome env e (SceneFnOutcome.Quit p0) =
        ((env.handleQuit e.handle_quit { e with stack := ⟨[]⟩ } q).1,
         some (env.handleQuit e.handle_quit { e with stack := ⟨[]⟩ } q).2))
    ∧ run testEnv engineA [[⟨0⟩]]
        = RunResult.exited [("score", DictValue.I32 10), ("globals", DictValue.Dict [])]
    ∧ (handle_scene_fn_outcome testEnv engineDepth3
        (SceneFnOutcome.Quit [("score", DictValue.I32 10)])).1.stack.len = 0
    ∧ dictGet (handle_scene_fn_outcome testEnv engineDepth3
        (SceneFnOutcome.Quit [("score", DictValue.I32 10)])).1.globals "count"
      = some (DictValue.I32 1) := by
  refine ⟨?_, run_engineA_eq, ?_, ?_⟩
  · intro env e p0 hlen H
    apply quit_unwind_aux env e.stack.stack e p0 rfl ?_ H
    intro hnil
    rw [Stack.len, hnil] at hlen
    simp at hlen
  · simp [handle_scene_fn_outcome, engineDepth3, mkScene, Stack.pop, Stack.peek,
      Stack.setTop, Stack.len, testEnv, handle_props, dictGet, dictInsert, dictDelete]
  · simp [handle_scene_fn_outcome, engineDepth3, mkScene, Stack.pop, Stack.peek,
      Stack.setTop, testEnv, handle_props, dictGet, dictInsert, dictDelete]

/-- Witness for C1 (amended), at the concrete depth-3 engine whose scenes all
carry the immediately-quitting child-quit callback. -/
theorem quit_unwinds_stack_witness :
    ∃ q, handle_scene_fn_outcome testEnv engineDepth3
        (SceneFnOutcome.Quit [("score", DictValue.I32 10)]) =
      ((testEnv.handleQuit engineDepth3.handle_quit
          { engineDepth3 with stack := ⟨[]⟩ } q).1,
       some (testEnv.handleQuit engineDepth3.handle_quit
          { engineDepth3 with stack := ⟨[]⟩ } q).2) := by
  apply quit_unwinds_stack.1 testEnv engineDepth3 [("score", DictValue.I32 10)]
    (by decide)
  intro s hs p
  refine ⟨p, ?_⟩
  simp [engineDepth3, mkScene] at hs
  rcases hs with rfl | rfl | rfl <;> rfl

/-- C1 (counterexample): in the claimed concrete scenario — one scene quitting
with `{score: 10}`, quit handler returning its input verbatim — `run()` does
not return `{score: 10}`: `handle_props` inserts a `"globals"` binding into
the props before they reach the handler, and a dictionary equal to
`{score: 10}` has no `"globals"` binding. -/
theorem quit_verbatim_counterexample :
    run testEnv engineA [[⟨0⟩]]
      = RunResult.exited [("score", DictValue.I32 10), ("globals", DictValue.Dict [])]
    ∧ dictGet [("score", DictValue.I32 10), ("globals", DictValue.Dict [])] "globals"
        = some (DictValue.Dict [])
    ∧ dictGet [("score", DictValue.I32 10)] "globals" = none
    ∧ run testEnv engineA [[⟨0⟩]] ≠ RunResult.exited [("score", DictValue.I32 10)] := by
  refine ⟨run_engineA_eq, rfl, rfl, ?_⟩
  intro h
  rw [run_engineA_eq] at h
  injection h with h'
  have hlen := congrArg List.length h'
  simp at hlen

/-- C4: once an event of a frame's batch makes its callback push
(`CreateChild`) or replace the top scene, the remaining events of the same
batch are dispatched against the engine whose top is the newly constructed
scene, so their callback lookups consult the new top's table. -/
theorem batch_sees_new_top (env : Env) (e : Engine) (evA : Event) (rest : List Event)
    (sA : Scene) (cbA : Nat)
    (hpeek : e.stack.peek = some sA)
    (hcb : getCallback sA.event_callbacks evA.etype = some cbA) :
    (∀ sA' cs props,
      env.eventCallback cbA sA evA = (sA', SceneFnOutcome.CreateChild cs props) →
      dispatch_events env e (evA :: rest) =
        dispatch_events env { e with stack := Stack.push (Stack.setTop e.stack sA') (env.createScene cs (handle_props e.globals props)) } rest
      ∧ ({ e with stack := Stack.push (Stack.setTop e.stack sA') (env.createScene cs (handle_props e.globals props)) } : Engine).stack.peek
          = some (env.createScene cs (handle_props e.globals props)))
    ∧ (∀ sA' cs props,
      env.eventCallback cbA sA evA = (sA', SceneFnOutcome.Replace cs props) →
      dispatch_events env e (evA :: rest) =
        dispatch_events env { e with stack := (Stack.replace (Stack.setTop e.stack sA') (env.createScene cs (handle_props e.globals props))).2 } rest
      ∧ ({ e with stack := (Stack.replace (Stack.setTop e.stack sA') (env.createScene cs (handle_props e.globals props))).2 } : Engine).stack.peek
          = some (env.createScene cs (handle_props e.globals props))) := by
  constructor
  · intro sA' cs props hout
    have hstep : dispatch_event env e evA =
        ({ e with stack := Stack.push (Stack.setTop e.stack sA') (env.createScene cs (handle_props e.globals props)) }, none) := by
      unfold dispatch_event
      rw [hpeek]
      simp only [hcb, hout, handle_scene_fn_outcome]
    constructor
    · simp only [dispatch_events, hstep]
    · simp [Stack.push, Stack.peek]
  · intro sA' cs props hout
    have hstep : dispatch_event env e evA =
        ({ e with stack := (Stack.replace (Stack.setTop e.stack sA') (env.createScene cs (handle_props e.globals props))).2 }, none) := by
      unfold dispatch_event
      rw [hpeek]
      simp only [hcb, hout, handle_scene_fn_outcome]
    constructor
    · simp only [dispatch_events, hstep]
    · simp [Stack.replace, Stack.pop, Stack.push, Stack.peek]

/-- Witness for C4: the scene of `enginePush` pushes a child on event type 0;
the remaining batch is dispatched against the engine topped by the new scene. -/
theorem batch_sees_new_top_witness :
    dispatch_events testEnv enginePush [⟨0⟩, ⟨5⟩] =
      dispatch_events testEnv { enginePush with stack := Stack.push (Stack.setTop enginePush.stack (mkScene [(0, 2), (5, 3)] 0 0)) (testEnv.createScene 1 (handle_props enginePush.globals [])) } [⟨5⟩]
    ∧ ({ enginePush with stack := Stack.push (Stack.setTop enginePush.stack (mkScene [(0, 2), (5, 3)] 0 0)) (testEnv.createScene 1 (handle_props enginePush.globals [])) } : Engine).stack.peek
        = some (testEnv.createScene 1 (handle_props enginePush.globals [])) :=
  (batch_sees_new_top testEnv enginePush ⟨0⟩ [⟨5⟩] (mkScene [(0, 2), (5, 3)] 0 0) 2
    rfl rfl).1 (mkScene [(0, 2), (5, 3)] 0 0) 1 [] rfl
